import Mathlib

/-!
Verification of the RDP client boundary (`src/lib/srv/desktop/rdp/rdpclient/librdprs.h`)
and the session engine it implies.

The repository ships only the C binding header: the enum `CGOPointerButton`,
the structs `CGOString`, `Bitmap`, `Pointer`, `Key`, and the five entry points
`connect_rdp`, `read_rdp_output`, `write_rdp_pointer`, `write_rdp_keyboard`,
`close_rdp`.  Those types are embedded here directly from the header.  The
engine behind the boundary (wire codec, session state machine, output pump,
input gateway, client registry) is not in the sources, so each of those
components is modelled from the specification, as marked in the doc comments.

Bytes are modelled as `Nat` (values below 256 where produced), byte buffers as
`List Nat`, and the 16-bit wire fields carry an explicit `% 256` / bound where
overflow matters.
-/

namespace RdpClient

/-- From the header: `CGOPointerButton` enumeration. -/
inductive CGOPointerButton where
  | PointerButtonNone
  | PointerButtonLeft
  | PointerButtonRight
  | PointerButtonMiddle
  deriving DecidableEq, Repr

/-- From the header: `CGOString` is a pointer plus a `uint16_t` length.  The
`data` field models the pointed-to bytes; `len` models the `uint16_t` length
field, hence the well-formedness bound `len < 2 ^ 16` below. -/
structure CGOString where
  data : List Nat
  len : Nat
  deriving DecidableEq, Repr

/-- A `CGOString` is well formed when its length field matches the byte
sequence it points at and fits the `uint16_t` field of the header. -/
def CGOString.wf (c : CGOString) : Prop :=
  c.len = c.data.length ∧ c.len < 2 ^ 16

instance (c : CGOString) : Decidable c.wf := by
  unfold CGOString.wf; infer_instance

/-- A byte string is representable at the connect interface iff some well
formed `CGOString` carries it. -/
def representableString (s : List Nat) : Prop :=
  ∃ c : CGOString, c.wf ∧ c.data = s

/-- From the header: `Bitmap` — a destination rectangle (`uint16_t` corners)
plus a pixel byte buffer (`data_ptr`/`data_len`); the buffer is modelled as
the byte list `data`, whose length stands for `data_len`. -/
structure Bitmap where
  dest_left : Nat
  dest_top : Nat
  dest_right : Nat
  dest_bottom : Nat
  data : List Nat
  deriving DecidableEq, Repr

/-- From the header: `Pointer` — screen coordinates, button, down flag. -/
structure Pointer where
  x : Nat
  y : Nat
  button : CGOPointerButton
  down : Bool
  deriving DecidableEq, Repr

/-- From the header: `Key` — scan code and down flag. -/
structure Key where
  code : Nat
  down : Bool
  deriving DecidableEq, Repr

/-- Modelled from the spec: the decode-time error taxonomy
`ProtocolError{Truncated, Malformed, OutOfBounds}` (§7). -/
inductive ProtocolError where
  | Truncated
  | Malformed
  | OutOfBounds
  deriving DecidableEq, Repr

/-- Modelled from the spec: the boundary error taxonomy of §7 (the codec part
is wrapped by `Protocol`). -/
inductive RDPError where
  | Protocol (e : ProtocolError)
  | InvalidHandle
  | InvalidState
  | DuplicateHandle
  | AuthFailure
  deriving DecidableEq, Repr

/-! ## Wire codec

Modelled from the spec (§4.1): the codec itself is absent from the sources.
All 16-bit wire fields are little-endian; a PDU starts with a 16-bit declared
length counting the whole PDU. -/

/-- Little-endian encoding of a 16-bit field. -/
def u16le (x : Nat) : List Nat :=
  [x % 256, x / 256 % 256]

/-- Read a little-endian 16-bit field from the front of a buffer. -/
def readU16 : List Nat → Option (Nat × List Nat)
  | lo :: hi :: rest => some (lo + 256 * hi, rest)
  | _ => none

/-- The length a PDU buffer declares in its 2-byte header (0 when the buffer
cannot even hold the header). -/
def declaredLen (buf : List Nat) : Nat :=
  match readU16 buf with
  | some (n, _) => n
  | none => 0

/-- Modelled from the spec: parse one bitmap-update rectangle — four inclusive
16-bit corners, a 16-bit pixel-data length, then the pixel bytes.  The corners
must satisfy `left ≤ right`, `top ≤ bottom` and lie inside the negotiated
`sw × sh` screen (else `OutOfBounds`), and the pixel-data length must equal
the inclusive area times the negotiated bytes-per-pixel (else `Malformed`). -/
def parseRect (sw sh bpp : Nat) (bytes : List Nat) :
    Except ProtocolError (Bitmap × List Nat) :=
  match readU16 bytes with
  | none => .error .Truncated
  | some (left, b1) =>
  match readU16 b1 with
  | none => .error .Truncated
  | some (top, b2) =>
  match readU16 b2 with
  | none => .error .Truncated
  | some (right, b3) =>
  match readU16 b3 with
  | none => .error .Truncated
  | some (bottom, b4) =>
  if left ≤ right ∧ top ≤ bottom ∧ right < sw ∧ bottom < sh then
    match readU16 b4 with
    | none => .error .Truncated
    | some (n, b5) =>
      if n = (right - left + 1) * (bottom - top + 1) * bpp then
        if n ≤ b5.length then .ok (⟨left, top, right, bottom, List.take n b5⟩, List.drop n b5)
        else .error .Truncated
      else .error .Malformed
  else .error .OutOfBounds

/-- Modelled from the spec: parse `count` packed rectangles in arrival order;
trailing garbage inside the declared PDU region is `Malformed`. -/
def parseRects (sw sh bpp : Nat) : Nat → List Nat → Except ProtocolError (List Bitmap)
  | 0, bytes => if bytes = [] then .ok [] else .error .Malformed
  | n + 1, bytes =>
    match parseRect sw sh bpp bytes with
    | .error e => .error e
    | .ok (d, rest) =>
      match parseRects sw sh bpp n rest with
      | .error e => .error e
      | .ok ds => .ok (d :: ds)

/-- Modelled from the spec: the body of an update PDU is a 16-bit rectangle
count followed by the packed rectangles. -/
def decodeBody (sw sh bpp : Nat) (body : List Nat) : Except ProtocolError (List Bitmap) :=
  match readU16 body with
  | none => .error .Truncated
  | some (n, rest) => parseRects sw sh bpp n rest

/-- Modelled from the spec: `decode_update_pdu` (§4.1).  The declared PDU
length is validated against the actual buffer length before any payload byte
is read: a buffer shorter than its declared length fails with `Truncated`,
and decoding then consumes only the declared prefix of the buffer. -/
def decode_update_pdu (sw sh bpp : Nat) (buf : List Nat) :
    Except ProtocolError (List Bitmap) :=
  match readU16 buf with
  | none => .error .Truncated
  | some (dlen, _) =>
    if buf.length < dlen then .error .Truncated
    else decodeBody sw sh bpp (List.take (dlen - 2) (List.drop 2 buf))

/-- Modelled from the spec: encode one bitmap rectangle for an update PDU. -/
def encodeRect (d : Bitmap) : List Nat :=
  u16le d.dest_left ++ u16le d.dest_top ++ u16le d.dest_right ++ u16le d.dest_bottom ++
    u16le d.data.length ++ d.data

/-- Modelled from the spec: build an update PDU — declared length, rectangle
count, then the packed rectangles. -/
def encode_update_pdu (ds : List Bitmap) : List Nat :=
  u16le (4 + (List.flatten (ds.map encodeRect)).length) ++ u16le ds.length ++
    List.flatten (ds.map encodeRect)

/-- Wire code of a pointer button. -/
def buttonCode : CGOPointerButton → Nat
  | .PointerButtonNone => 0
  | .PointerButtonLeft => 1
  | .PointerButtonRight => 2
  | .PointerButtonMiddle => 3

/-- Inverse of `buttonCode`. -/
def buttonOfCode : Nat → Option CGOPointerButton
  | 0 => some .PointerButtonNone
  | 1 => some .PointerButtonLeft
  | 2 => some .PointerButtonRight
  | 3 => some .PointerButtonMiddle
  | _ => none

/-- Modelled from the spec: `encode_pointer_pdu` (§4.1) — 16-bit x, 16-bit y,
button code byte, down flag byte. -/
def encode_pointer_pdu (p : Pointer) : List Nat :=
  u16le p.x ++ u16le p.y ++ [buttonCode p.button, if p.down then 1 else 0]

/-- Modelled from the spec: the reference decoder for pointer PDUs. -/
def decode_pointer_pdu (buf : List Nat) : Except ProtocolError Pointer :=
  match readU16 buf with
  | none => .error .Truncated
  | some (x, b1) =>
  match readU16 b1 with
  | none => .error .Truncated
  | some (y, b2) =>
  match b2 with
  | [bc, dc] =>
    match buttonOfCode bc with
    | none => .error .Malformed
    | some btn =>
      if dc = 0 then .ok ⟨x, y, btn, false⟩
      else if dc = 1 then .ok ⟨x, y, btn, true⟩
      else .error .Malformed
  | _ => .error .Malformed

/-- Modelled from the spec: `encode_key_pdu` (§4.1) — 16-bit scan code and a
down flag byte. -/
def encode_key_pdu (k : Key) : List Nat :=
  u16le k.code ++ [if k.down then 1 else 0]

/-! ## Session state machine and client registry

Modelled from the spec (§4.2, §4.5): the engine behind the boundary is absent
from the sources.  A `Session` records the protocol state, the negotiated
screen geometry and whether its transport has already been released; the
registry maps the caller's `int64_t` handle (`client_ref` in the header) to
the live session and counts transport releases, so double-release is visible
in the model. -/

/-- Modelled from the spec: the session states of §4.2. -/
inductive SessionState where
  | Idle
  | Connecting
  | Negotiating
  | Active
  | Closing
  | Closed
  | Failed
  deriving DecidableEq, Repr

/-- Modelled from the spec: a live session (§3) — protocol state, negotiated
screen geometry, and whether the transport has already been shut down. -/
structure Session where
  state : SessionState
  screen_width : Nat
  screen_height : Nat
  transportReleased : Bool
  deriving DecidableEq, Repr

/-- Modelled from the spec: the registry state — the handle-to-session map
plus a counter of transport releases (§4.5, §5). -/
structure RegistryState where
  sessions : List (Int × Session)
  releaseCount : Nat
  deriving DecidableEq, Repr

/-- Look a handle up in the handle-to-session map. -/
def lookupSession (h : Int) : List (Int × Session) → Option Session
  | [] => none
  | (k, s) :: rest => if k = h then some s else lookupSession h rest

/-- Remove every entry for a handle from the handle-to-session map. -/
def removeSession (h : Int) : List (Int × Session) → List (Int × Session)
  | [] => []
  | (k, s) :: rest =>
    if k = h then removeSession h rest else (k, s) :: removeSession h rest

/-- A handle is live when the registry holds a session for it. -/
def isLive (st : RegistryState) (h : Int) : Prop :=
  lookupSession h st.sessions ≠ none

instance (st : RegistryState) (h : Int) : Decidable (isLive st h) := by
  unfold isLive; infer_instance

/-- Number of registry entries held for a handle. -/
def countHandle (h : Int) : List (Int × Session) → Nat
  | [] => 0
  | (k, _) :: rest => (if k = h then 1 else 0) + countHandle h rest

/-- Modelled from the spec: `register` (§4.5) — fails with `DuplicateHandle`
when the handle is already live, otherwise inserts the session. -/
def registerHandle (st : RegistryState) (h : Int) (s : Session) :
    Except RDPError RegistryState :=
  match lookupSession h st.sessions with
  | some _ => .error .DuplicateHandle
  | none => .ok { st with sessions := (h, s) :: st.sessions }

/-- Modelled from the spec: `unregister` (§4.5) — drops the handle. -/
def unregisterHandle (st : RegistryState) (h : Int) : RegistryState :=
  { st with sessions := removeSession h st.sessions }

/-- Modelled from the spec: `close_rdp` (§4.2, §5, §8) — a close on an absent
(already closed) handle fails with `InvalidHandle` and releases nothing; a
close on a live handle releases the transport exactly when it was not already
released (e.g. by a `Failed` transition) and removes the registry entry. -/
def close_rdp (st : RegistryState) (h : Int) : Except RDPError Unit × RegistryState :=
  match lookupSession h st.sessions with
  | none => (.error .InvalidHandle, st)
  | some s =>
    (.ok (),
     { sessions := removeSession h st.sessions,
       releaseCount := st.releaseCount + (if s.transportReleased then 0 else 1) })

/-- Modelled from the spec: the `Failed` transition of §4.2 — the session
leaves `Active` for the terminal `Failed` state and its transport, already
closed by the peer, is shut down by that transition. -/
def markFailed (s : Session) : Session :=
  { s with state := .Failed, transportReleased := true }

/-- Apply the `Failed` transition to the entry of one handle. -/
def peerCloseList (h : Int) : List (Int × Session) → List (Int × Session)
  | [] => []
  | (k, s) :: rest => (k, if k = h then markFailed s else s) :: peerCloseList h rest

/-- Modelled from the spec: the transport being closed by the peer while the
session is `Active` transitions it directly to `Failed` (§4.2). -/
def peerClose (st : RegistryState) (h : Int) : RegistryState :=
  { st with sessions := peerCloseList h st.sessions }

/-- Modelled from the spec: `write_rdp_pointer` / the input gateway (§4.4) —
valid only while the session is `Active`, otherwise `InvalidState`; on success
the encoded PDU bytes are written to the transport. -/
def write_rdp_pointer (st : RegistryState) (h : Int) (p : Pointer) :
    Except RDPError (List Nat) :=
  match lookupSession h st.sessions with
  | none => .error .InvalidHandle
  | some s =>
    if s.state = .Active then .ok (encode_pointer_pdu p)
    else .error .InvalidState

/-- Modelled from the spec: `write_rdp_keyboard` / the input gateway (§4.4). -/
def write_rdp_keyboard (st : RegistryState) (h : Int) (k : Key) :
    Except RDPError (List Nat) :=
  match lookupSession h st.sessions with
  | none => .error .InvalidHandle
  | some s =>
    if s.state = .Active then .ok (encode_key_pdu k)
    else .error .InvalidState

/-! ## Connect -/

/-- Modelled from the spec: `ConnectionParameters` (§3) — address, username,
password as boundary strings plus the requested screen geometry. -/
structure ConnectionParameters where
  go_addr : CGOString
  go_username : CGOString
  go_password : CGOString
  screen_width : Nat
  screen_height : Nat
  deriving DecidableEq, Repr

/-- Modelled from the spec: `ServerCapabilities` — confirmed geometry and
bytes-per-pixel from the negotiation (§4.1, §4.2). -/
structure ServerCapabilities where
  width : Nat
  height : Nat
  bpp : Nat
  deriving DecidableEq, Repr

/-- Modelled from the spec: `decode_server_response` (§4.1) — a
length-declared PDU carrying confirmed width, height and bytes-per-pixel. -/
def decode_server_response (buf : List Nat) : Except ProtocolError ServerCapabilities :=
  match readU16 buf with
  | none => .error .Truncated
  | some (dlen, _) =>
    if buf.length < dlen then .error .Truncated
    else
      match List.take (dlen - 2) (List.drop 2 buf) with
      | [wlo, whi, hlo, hhi, b] => .ok ⟨wlo + 256 * whi, hlo + 256 * hhi, b⟩
      | _ => .error .Malformed

/-- Modelled from the spec: `connect_rdp` (§4.2, §7) — negotiation runs via
the wire codec on the server response; a codec or state-machine error during
connect/negotiate is surfaced to the caller and leaves the registry unchanged,
with no handle registered.  On success the session enters `Active` and is
registered under the caller's handle. -/
def connect_rdp (st : RegistryState) (h : Int) (params : ConnectionParameters)
    (serverResp : List Nat) : Except RDPError Unit × RegistryState :=
  match decode_server_response serverResp with
  | .error e => (.error (.Protocol e), st)
  | .ok caps =>
    match registerHandle st h
        { state := .Active, screen_width := caps.width, screen_height := caps.height,
          transportReleased := false } with
    | .error e => (.error e, st)
    | .ok st2 => (.ok (), st2)

/-! ## Output pump

Modelled from the spec (§4.3): the pump repeatedly reads one transport frame,
decodes it into bitmap deltas and invokes the caller's sink once per delta in
decode order.  The transport is modelled as the finite list of frames it will
deliver before the peer closes it; per-frame decode errors are skipped
(recoverable framing gaps, §4.3), and the end of the frame list is the
transport closing, which sends the session to `Failed` and ends the pump. -/

/-- Why the pump returned: the transport closed (session left `Active`) or
the sink asked to stop. -/
inductive PumpExit where
  | TransportClosed
  | SinkStopped
  deriving DecidableEq, Repr

/-- Deliver decoded deltas to the sink one at a time, in order, until the
sink declines; returns the deltas the sink was invoked on and whether the
pump should continue. -/
def deliverDeltas (sink : Bitmap → Bool) : List Bitmap → List Bitmap × Bool
  | [] => ([], true)
  | d :: ds =>
    if sink d then
      (d :: (deliverDeltas sink ds).1, (deliverDeltas sink ds).2)
    else ([d], false)

/-- Modelled from the spec: `read_rdp_output` (§4.3) — the blocking output
pump over the session's remaining transport frames.  Returns the sequence of
sink invocations and why it stopped. -/
def read_rdp_output (sw sh bpp : Nat) (sink : Bitmap → Bool) :
    List (List Nat) → List Bitmap × PumpExit
  | [] => ([], .TransportClosed)
  | f :: fs =>
    match decode_update_pdu sw sh bpp f with
    | .error _ => read_rdp_output sw sh bpp sink fs
    | .ok ds =>
      match deliverDeltas sink ds with
      | (del, true) =>
        (del ++ (read_rdp_output sw sh bpp sink fs).1,
         (read_rdp_output sw sh bpp sink fs).2)
      | (del, false) => (del, .SinkStopped)

/-! ## Codec lemmas -/

/-- Reading back a well-encoded 16-bit field recovers it and the rest. -/
theorem readU16_u16le (x : Nat) (rest : List Nat) (hx : x < 2 ^ 16) :
    readU16 (u16le x ++ rest) = some (x, rest) := by
  simp only [u16le, List.cons_append, List.nil_append, readU16]
  congr 1
  congr 1
  omega

/-- Soundness of `parseRect`: a successfully parsed rectangle is well
oriented, lies inside the negotiated screen, and its pixel buffer length is
the inclusive area times the bytes-per-pixel. -/
theorem parseRect_sound (sw sh bpp : Nat) (bytes : List Nat) (d : Bitmap) (rest : List Nat)
    (hp : parseRect sw sh bpp bytes = .ok (d, rest)) :
    (d.dest_left ≤ d.dest_right ∧ d.dest_top ≤ d.dest_bottom ∧
      d.dest_right < sw ∧ d.dest_bottom < sh) ∧
    d.data.length =
      (d.dest_right - d.dest_left + 1) * (d.dest_bottom - d.dest_top + 1) * bpp := by
  unfold parseRect at hp
  repeat' split at hp
  all_goals simp_all
  obtain ⟨hd, hrest⟩ := hp
  subst hd
  simp only [List.length_take]
  refine ⟨⟨?_, ?_, ?_, ?_⟩, ?_⟩ <;> omega

/-- Soundness of `parseRects`: every rectangle in a successful parse is well
oriented, in bounds, and has the exact pixel-buffer length. -/
theorem parseRects_sound (sw sh bpp : Nat) :
    ∀ (n : Nat) (bytes : List Nat) (ds : List Bitmap),
      parseRects sw sh bpp n bytes = .ok ds →
      ∀ d ∈ ds,
        (d.dest_left ≤ d.dest_right ∧ d.dest_top ≤ d.dest_bottom ∧
          d.dest_right < sw ∧ d.dest_bottom < sh) ∧
        d.data.length =
          (d.dest_right - d.dest_left + 1) * (d.dest_bottom - d.dest_top + 1) * bpp := by
  intro n
  induction n with
  | zero =>
    intro bytes ds hp d hd
    unfold parseRects at hp
    split at hp
    · simp only [Except.ok.injEq] at hp
      subst hp
      simp at hd
    · simp at hp
  | succ m ih =>
    intro bytes ds hp d hd
    unfold parseRects at hp
    split at hp
    · simp at hp
    · rename_i heq
      split at hp
      · simp at hp
      · rename_i heq2
        simp only [Except.ok.injEq] at hp
        subst hp
        cases hd with
        | head => exact parseRect_sound sw sh bpp bytes d _ heq
        | tail _ hmem => exact ih _ _ heq2 d hmem

/-- Unfolding of `decode_update_pdu` on a buffer with at least the 2-byte
header, written in cons form. -/
theorem decode_update_pdu_cons (sw sh bpp c1 c2 : Nat) (rest : List Nat) :
    decode_update_pdu sw sh bpp (c1 :: c2 :: rest) =
      if rest.length + 1 + 1 < c1 + 256 * c2 then .error .Truncated
      else decodeBody sw sh bpp (List.take (c1 + 256 * c2 - 2) rest) := rfl

/-- Unfolding of `decodeBody` on a body with at least the 2-byte count. -/
theorem decodeBody_cons (sw sh bpp c1 c2 : Nat) (rest : List Nat) :
    decodeBody sw sh bpp (c1 :: c2 :: rest) =
      parseRects sw sh bpp (c1 + 256 * c2) rest := rfl

/-- The wire size of an encoded rectangle: ten header bytes plus the pixel
data. -/
theorem encodeRect_length (d : Bitmap) :
    (encodeRect d).length = 10 + d.data.length := by
  simp [encodeRect, u16le]
  omega

/-- Parsing an encoded rectangle at the front of a buffer recovers it (or
rejects it exactly as `parseRect` prescribes), leaving the rest. -/
theorem parseRect_encodeRect (sw sh bpp : Nat) (d : Bitmap) (rest : List Nat)
    (h1 : d.dest_left < 2 ^ 16) (h2 : d.dest_top < 2 ^ 16) (h3 : d.dest_right < 2 ^ 16)
    (h4 : d.dest_bottom < 2 ^ 16) (h5 : d.data.length < 2 ^ 16) :
    parseRect sw sh bpp (encodeRect d ++ rest) =
      if d.dest_left ≤ d.dest_right ∧ d.dest_top ≤ d.dest_bottom ∧
          d.dest_right < sw ∧ d.dest_bottom < sh then
        (if d.data.length =
            (d.dest_right - d.dest_left + 1) * (d.dest_bottom - d.dest_top + 1) * bpp then
          .ok (d, rest)
        else .error .Malformed)
      else .error .OutOfBounds := by
  obtain ⟨l, t, r, b, data⟩ := d
  simp only at h1 h2 h3 h4 h5 ⊢
  have he : encodeRect ⟨l, t, r, b, data⟩ ++ rest =
      l % 256 :: l / 256 % 256 :: t % 256 :: t / 256 % 256 :: r % 256 :: r / 256 % 256 ::
      b % 256 :: b / 256 % 256 :: data.length % 256 :: data.length / 256 % 256 ::
      (data ++ rest) := by
    simp [encodeRect, u16le]
  rw [he]
  have hl : l % 256 + 256 * (l / 256 % 256) = l := by omega
  have ht : t % 256 + 256 * (t / 256 % 256) = t := by omega
  have hr : r % 256 + 256 * (r / 256 % 256) = r := by omega
  have hb : b % 256 + 256 * (b / 256 % 256) = b := by omega
  have hn : data.length % 256 + 256 * (data.length / 256 % 256) = data.length := by omega
  simp only [parseRect, readU16, hl, ht, hr, hb, hn]
  by_cases hok : l ≤ r ∧ t ≤ b ∧ r < sw ∧ b < sh
  · by_cases harea : data.length = (r - l + 1) * (b - t + 1) * bpp
    · have hle : data.length ≤ (data ++ rest).length := by simp
      simp [hok, harea, hle, List.take_left, List.drop_left]
    · simp [hok, harea]
  · simp [hok]

/-- Unfolding of `parseRects` for a single rectangle. -/
theorem parseRects_one (sw sh bpp : Nat) (bytes : List Nat) :
    parseRects sw sh bpp 1 bytes =
      match parseRect sw sh bpp bytes with
      | .error e => .error e
      | .ok (d, rest) => if rest = [] then .ok [d] else .error .Malformed := by
  unfold parseRects
  cases hp : parseRect sw sh bpp bytes with
  | error e => simp
  | ok pr =>
    obtain ⟨d, rest⟩ := pr
    by_cases hr : rest = [] <;> simp [parseRects, hr]

/-- Decoding a well-formed single-rectangle update PDU built by
`encode_update_pdu` runs the rectangle checks of `parseRect`. -/
theorem decode_encode_one (sw sh bpp : Nat) (d : Bitmap)
    (h1 : d.dest_left < 2 ^ 16) (h2 : d.dest_top < 2 ^ 16) (h3 : d.dest_right < 2 ^ 16)
    (h4 : d.dest_bottom < 2 ^ 16) (h6 : 14 + d.data.length < 2 ^ 16) :
    decode_update_pdu sw sh bpp (encode_update_pdu [d]) =
      if d.dest_left ≤ d.dest_right ∧ d.dest_top ≤ d.dest_bottom ∧
          d.dest_right < sw ∧ d.dest_bottom < sh then
        (if d.data.length =
            (d.dest_right - d.dest_left + 1) * (d.dest_bottom - d.dest_top + 1) * bpp then
          .ok [d]
        else .error .Malformed)
      else .error .OutOfBounds := by
  have h5 : d.data.length < 2 ^ 16 := by omega
  have hel : (encodeRect d).length = 10 + d.data.length := encodeRect_length d
  have htot : 4 + (encodeRect d).length = 14 + d.data.length := by omega
  have he : encode_update_pdu [d] =
      (14 + d.data.length) % 256 :: (14 + d.data.length) / 256 % 256 :: 1 :: 0 ::
        encodeRect d := by
    simp [encode_update_pdu, u16le, hel]
    omega
  rw [he, decode_update_pdu_cons]
  have hv : (14 + d.data.length) % 256 + 256 * ((14 + d.data.length) / 256 % 256) =
      14 + d.data.length := by omega
  rw [hv]
  have hrl : (1 :: 0 :: encodeRect d).length + 1 + 1 = 14 + d.data.length := by
    simp [hel]
    omega
  rw [if_neg (by omega)]
  have htk : List.take (14 + d.data.length - 2) (1 :: 0 :: encodeRect d) =
      1 :: 0 :: encodeRect d := by
    apply List.take_of_length_le
    simp [hel]
    omega
  rw [htk, decodeBody_cons]
  have hc : (1 : Nat) + 256 * 0 = 1 := by omega
  rw [hc, parseRects_one]
  have har : encodeRect d = encodeRect d ++ [] := by simp
  rw [har, parseRect_encodeRect sw sh bpp d [] h1 h2 h3 h4 h5]
  by_cases hok : d.dest_left ≤ d.dest_right ∧ d.dest_top ≤ d.dest_bottom ∧
      d.dest_right < sw ∧ d.dest_bottom < sh
  · by_cases harea : d.data.length =
        (d.dest_right - d.dest_left + 1) * (d.dest_bottom - d.dest_top + 1) * bpp
    · simp [hok, harea]
    · simp [hok, harea]
  · simp [hok]

/-! ## Registry lemmas -/

/-- After removing a handle, looking it up finds nothing. -/
theorem lookupSession_removeSession_self (h : Int) (l : List (Int × Session)) :
    lookupSession h (removeSession h l) = none := by
  induction l with
  | nil => rfl
  | cons e rest ih =>
    obtain ⟨k, s⟩ := e
    by_cases hk : k = h <;> simp [removeSession, lookupSession, hk, ih]

/-- A handle that looks up to nothing has no registry entries. -/
theorem countHandle_eq_zero_of_lookup_none (h : Int) (l : List (Int × Session))
    (hl : lookupSession h l = none) : countHandle h l = 0 := by
  induction l with
  | nil => rfl
  | cons e rest ih =>
    obtain ⟨k, s⟩ := e
    by_cases hk : k = h
    · simp [lookupSession, hk] at hl
    · simp only [lookupSession, if_neg hk] at hl
      simp [countHandle, hk, ih hl]

/-- The peer-close transition maps the handle's session through `markFailed`
and leaves every other handle alone. -/
theorem lookupSession_peerClose (st : RegistryState) (h : Int) :
    lookupSession h (peerClose st h).sessions =
      (lookupSession h st.sessions).map markFailed := by
  show lookupSession h (peerCloseList h st.sessions) = _
  induction st.sessions with
  | nil => rfl
  | cons e rest ih =>
    obtain ⟨k, s⟩ := e
    by_cases hk : k = h <;> simp [peerCloseList, lookupSession, hk, ih]

/-! ## Claim theorems -/

/-- C1: a byte buffer whose actual length is shorter than the length declared
in its PDU header makes `decode_update_pdu` fail with `Truncated`, and the
decoder never reads past the supplied buffer: when the declared length fits,
appending extra bytes after the buffer cannot change the decode result, so
only bytes inside the declared region of the supplied buffer are ever read
(malformed framing inside that region fails with `Malformed`). -/
theorem decode_update_pdu_truncated_safe (sw sh bpp : Nat) (buf : List Nat) :
    (2 ≤ buf.length → buf.length < declaredLen buf →
      decode_update_pdu sw sh bpp buf = .error .Truncated) ∧
    (2 ≤ buf.length → declaredLen buf ≤ buf.length →
      ∀ extra : List Nat, decode_update_pdu sw sh bpp (buf ++ extra) =
        decode_update_pdu sw sh bpp buf) := by
  match buf with
  | [] => exact ⟨fun hl => by simp at hl, fun hl => by simp at hl⟩
  | [a] => exact ⟨fun hl => by simp at hl, fun hl => by simp at hl⟩
  | a :: b :: t =>
    constructor
    · intro _ hlt
      simp only [declaredLen, readU16, List.length_cons] at hlt
      simp only [decode_update_pdu, readU16, List.length_cons]
      rw [if_pos hlt]
    · intro _ hfit extra
      simp only [declaredLen, readU16, List.length_cons] at hfit
      simp only [decode_update_pdu, readU16, List.cons_append, List.length_cons,
        List.length_append]
      rw [if_neg (by omega), if_neg (by omega)]
      have hdrop : List.drop 2 (a :: b :: (t ++ extra)) = t ++ extra := rfl
      have hdrop2 : List.drop 2 (a :: b :: t) = t := rfl
      rw [hdrop, hdrop2, List.take_append_of_le_length (by omega)]

/-- C1 witness: the buffer `[10, 0, 1]` declares length 10 but has length 3,
so decoding fails with `Truncated`. -/
theorem decode_update_pdu_truncated_safe_witness :
    decode_update_pdu 4 4 1 [10, 0, 1] = .error .Truncated :=
  (decode_update_pdu_truncated_safe 4 4 1 [10, 0, 1]).1 (by decide) (by decide)

/-- C2: encoding a pointer event with `encode_pointer_pdu` and decoding the
resulting PDU with the reference decoder yields back exactly the event, for
every event whose coordinates fit the 16-bit wire fields. -/
theorem pointer_pdu_roundtrip (p : Pointer) (hx : p.x < 2 ^ 16) (hy : p.y < 2 ^ 16) :
    decode_pointer_pdu (encode_pointer_pdu p) = .ok p := by
  obtain ⟨x, y, btn, down⟩ := p
  simp only at hx hy
  simp only [encode_pointer_pdu, List.append_assoc, decode_pointer_pdu,
    readU16_u16le x _ hx, readU16_u16le y _ hy]
  cases btn <;> cases down <;> simp [buttonCode, buttonOfCode]

/-- C2 witness: a concrete pointer event round-trips. -/
theorem pointer_pdu_roundtrip_witness :
    decode_pointer_pdu (encode_pointer_pdu
      ⟨100, 200, CGOPointerButton.PointerButtonLeft, true⟩) =
      .ok ⟨100, 200, CGOPointerButton.PointerButtonLeft, true⟩ :=
  pointer_pdu_roundtrip ⟨100, 200, CGOPointerButton.PointerButtonLeft, true⟩
    (by decide) (by decide)

/-- C3: every bitmap delta produced by `decode_update_pdu` satisfies
`right ≥ left` and `bottom ≥ top` with both corners inside the negotiated
screen bounds (inclusive edges, so `right < sw` and `bottom < sh`), and a
well-framed input PDU whose rectangle violates those conditions makes
decoding fail with `OutOfBounds`. -/
theorem decode_update_pdu_bounds (sw sh bpp : Nat) (buf : List Nat) (ds : List Bitmap) :
    (decode_update_pdu sw sh bpp buf = .ok ds →
      ∀ d ∈ ds, d.dest_left ≤ d.dest_right ∧ d.dest_top ≤ d.dest_bottom ∧
        d.dest_right < sw ∧ d.dest_bottom < sh) ∧
    (∀ d : Bitmap, d.dest_left < 2 ^ 16 → d.dest_top < 2 ^ 16 → d.dest_right < 2 ^ 16 →
      d.dest_bottom < 2 ^ 16 → 14 + d.data.length < 2 ^ 16 →
      ¬ (d.dest_left ≤ d.dest_right ∧ d.dest_top ≤ d.dest_bottom ∧
          d.dest_right < sw ∧ d.dest_bottom < sh) →
      decode_update_pdu sw sh bpp (encode_update_pdu [d]) = .error .OutOfBounds) := by
  constructor
  · intro hdec d hd
    unfold decode_update_pdu at hdec
    split at hdec
    · simp at hdec
    · split at hdec
      · simp at hdec
      · unfold decodeBody at hdec
        split at hdec
        · simp at hdec
        · exact (parseRects_sound sw sh bpp _ _ ds hdec d hd).1
  · intro d h1 h2 h3 h4 h6 hviol
    rw [decode_encode_one sw sh bpp d h1 h2 h3 h4 h6, if_neg hviol]

/-- C3 witness: the rectangle `left = 5, right = 2` (badly oriented, and with
`left` outside the 4 × 4 screen) is rejected with `OutOfBounds`. -/
theorem decode_update_pdu_bounds_witness :
    decode_update_pdu 4 4 1 (encode_update_pdu [⟨5, 0, 2, 0, [255]⟩]) =
      .error .OutOfBounds :=
  (decode_update_pdu_bounds 4 4 1 [] []).2 ⟨5, 0, 2, 0, [255]⟩ (by decide) (by decide)
    (by decide) (by decide) (by decide) (by decide)

/-- C4: every bitmap delta produced by `decode_update_pdu` has a pixel-data
buffer whose length equals the rectangle's inclusive area
`(right - left + 1) * (bottom - top + 1)` times the negotiated
bytes-per-pixel. -/
theorem decode_update_pdu_area (sw sh bpp : Nat) (buf : List Nat) (ds : List Bitmap)
    (hdec : decode_update_pdu sw sh bpp buf = .ok ds) :
    ∀ d ∈ ds, d.data.length =
      (d.dest_right - d.dest_left + 1) * (d.dest_bottom - d.dest_top + 1) * bpp := by
  intro d hd
  unfold decode_update_pdu at hdec
  split at hdec
  · simp at hdec
  · split at hdec
    · simp at hdec
    · unfold decodeBody at hdec
      split at hdec
      · simp at hdec
      · exact (parseRects_sound sw sh bpp _ _ ds hdec d hd).2

/-- C4 witness: the 1 × 1 rectangle at the origin decodes from its own PDU
with a one-byte pixel buffer, matching its inclusive area at one
byte-per-pixel. -/
theorem decode_update_pdu_area_witness :
    (Bitmap.mk 0 0 0 0 [255]).data.length =
      ((Bitmap.mk 0 0 0 0 [255]).dest_right - (Bitmap.mk 0 0 0 0 [255]).dest_left + 1) *
        ((Bitmap.mk 0 0 0 0 [255]).dest_bottom - (Bitmap.mk 0 0 0 0 [255]).dest_top + 1) *
        1 :=
  decode_update_pdu_area 4 4 1 (encode_update_pdu [Bitmap.mk 0 0 0 0 [255]])
    [Bitmap.mk 0 0 0 0 [255]] rfl (Bitmap.mk 0 0 0 0 [255]) (by simp)

/-- C5: registering a handle that is already live fails with
`DuplicateHandle`, and this keeps holding until the handle is unregistered —
after `unregister` the registration succeeds; moreover a registry holding at
most one entry per handle still does so after any successful registration,
so at most one live session per handle is ever held. -/
theorem registerHandle_duplicate (st : RegistryState) (h : Int) (s : Session) :
    (isLive st h → registerHandle st h s = .error .DuplicateHandle) ∧
    (∃ st2, registerHandle (unregisterHandle st h) h s = .ok st2 ∧
      lookupSession h st2.sessions = some s) ∧
    ((∀ h2, countHandle h2 st.sessions ≤ 1) →
      ∀ st2, registerHandle st h s = .ok st2 →
        ∀ h2, countHandle h2 st2.sessions ≤ 1) := by
  refine ⟨?_, ?_, ?_⟩
  · intro hlive
    unfold isLive at hlive
    cases hl : lookupSession h st.sessions with
    | none => exact absurd hl hlive
    | some s0 => simp [registerHandle, hl]
  · refine ⟨{ unregisterHandle st h with
      sessions := (h, s) :: (unregisterHandle st h).sessions }, ?_, ?_⟩
    · simp [registerHandle, unregisterHandle, lookupSession_removeSession_self]
    · simp [lookupSession]
  · intro hcnt st2 hreg h2
    cases hl : lookupSession h st.sessions with
    | some s0 => simp [registerHandle, hl] at hreg
    | none =>
      simp only [registerHandle, hl] at hreg
      cases hreg
      by_cases hh : h = h2
      · subst hh
        have h0 := countHandle_eq_zero_of_lookup_none h st.sessions hl
        simp [countHandle, h0]
      · have := hcnt h2
        simp [countHandle, hh]
        omega

/-- C5 witness: with handle 1 live, registering it again fails with
`DuplicateHandle`. -/
theorem registerHandle_duplicate_witness :
    registerHandle ⟨[(1, ⟨SessionState.Active, 4, 4, false⟩)], 0⟩ 1
      ⟨SessionState.Active, 4, 4, false⟩ = .error .DuplicateHandle :=
  (registerHandle_duplicate ⟨[(1, ⟨SessionState.Active, 4, 4, false⟩)], 0⟩ 1
    ⟨SessionState.Active, 4, 4, false⟩).1 (by decide)

/-- C6: the first close of a live handle succeeds and releases the transport
exactly once (and not at all when a `Failed` transition already released it);
a second close of the same handle fails with `InvalidHandle` and changes
nothing, so no resource is released twice. -/
theorem close_rdp_twice (st : RegistryState) (h : Int) (s : Session)
    (hl : lookupSession h st.sessions = some s) :
    (close_rdp st h).1 = .ok () ∧
    (close_rdp st h).2.releaseCount =
      st.releaseCount + (if s.transportReleased then 0 else 1) ∧
    close_rdp (close_rdp st h).2 h = (.error .InvalidHandle, (close_rdp st h).2) := by
  refine ⟨?_, ?_, ?_⟩
  · simp [close_rdp, hl]
  · simp [close_rdp, hl]
  · simp [close_rdp, hl, lookupSession_removeSession_self]

/-- C6 witness: closing handle 1 once succeeds and bumps the release count;
the second close fails with `InvalidHandle` and leaves the state alone. -/
theorem close_rdp_twice_witness :
    (close_rdp ⟨[(1, ⟨SessionState.Active, 4, 4, false⟩)], 0⟩ 1).1 = .ok () ∧
    (close_rdp ⟨[(1, ⟨SessionState.Active, 4, 4, false⟩)], 0⟩ 1).2.releaseCount =
      0 + (if (⟨SessionState.Active, 4, 4, false⟩ : Session).transportReleased
        then 0 else 1) ∧
    close_rdp (close_rdp ⟨[(1, ⟨SessionState.Active, 4, 4, false⟩)], 0⟩ 1).2 1 =
      (.error .InvalidHandle,
        (close_rdp ⟨[(1, ⟨SessionState.Active, 4, 4, false⟩)], 0⟩ 1).2) :=
  close_rdp_twice ⟨[(1, ⟨SessionState.Active, 4, 4, false⟩)], 0⟩ 1
    ⟨SessionState.Active, 4, 4, false⟩ (by decide)

/-- C7: for a session in any state other than `Active`, both input writes
fail with `InvalidState` and nothing is handed to the transport; in
particular, after the peer closes the transport and the session transitions
to `Failed`, a subsequent pointer write fails with `InvalidState`. -/
theorem writes_require_active (st : RegistryState) (hd : Int) (s : Session)
    (p : Pointer) (k : Key) (hl : lookupSession hd st.sessions = some s) :
    (s.state ≠ .Active →
      write_rdp_pointer st hd p = .error .InvalidState ∧
      write_rdp_keyboard st hd k = .error .InvalidState) ∧
    (lookupSession hd (peerClose st hd).sessions = some (markFailed s) ∧
      (markFailed s).state = .Failed ∧
      write_rdp_pointer (peerClose st hd) hd p = .error .InvalidState) := by
  constructor
  · intro hs
    constructor <;> simp [write_rdp_pointer, write_rdp_keyboard, hl, hs]
  · have hlp : lookupSession hd (peerClose st hd).sessions = some (markFailed s) := by
      rw [lookupSession_peerClose, hl]
      rfl
    refine ⟨hlp, rfl, ?_⟩
    simp [write_rdp_pointer, hlp, markFailed]

/-- C7 witness: a pointer write to a session already in the `Closed` state
fails with `InvalidState`. -/
theorem writes_require_active_witness :
    write_rdp_pointer ⟨[(1, ⟨SessionState.Closed, 4, 4, true⟩)], 1⟩ 1
      ⟨0, 0, CGOPointerButton.PointerButtonNone, false⟩ = .error .InvalidState :=
  ((writes_require_active ⟨[(1, ⟨SessionState.Closed, 4, 4, true⟩)], 1⟩ 1
    ⟨SessionState.Closed, 4, 4, true⟩ ⟨0, 0, CGOPointerButton.PointerButtonNone, false⟩
    ⟨0, false⟩ (by decide)).1 (by decide)).1

/-- C9: a codec error during connect/negotiate is surfaced to the connect
caller with the registry left exactly as it was — no handle is registered;
likewise the state-machine error of a duplicate live handle surfaces without
touching the registry. -/
theorem connect_rdp_error_atomic (st : RegistryState) (hd : Int)
    (params : ConnectionParameters) (resp : List Nat) :
    (∀ e, decode_server_response resp = .error e →
      connect_rdp st hd params resp = (.error (.Protocol e), st)) ∧
    (∀ caps, decode_server_response resp = .ok caps → isLive st hd →
      connect_rdp st hd params resp = (.error .DuplicateHandle, st)) := by
  constructor
  · intro e he
    simp [connect_rdp, he]
  · intro caps hc hlive
    unfold isLive at hlive
    cases hl : lookupSession hd st.sessions with
    | none => exact absurd hl hlive
    | some s0 => simp [connect_rdp, hc, registerHandle, hl]

/-- C9 witness: an empty server response is a truncated negotiation PDU, so
connect surfaces `Truncated` and the empty registry stays empty. -/
theorem connect_rdp_error_atomic_witness :
    connect_rdp ⟨[], 0⟩ 1 ⟨⟨[], 0⟩, ⟨[], 0⟩, ⟨[], 0⟩, 4, 4⟩ [] =
      (.error (.Protocol .Truncated), ⟨[], 0⟩) :=
  (connect_rdp_error_atomic ⟨[], 0⟩ 1 ⟨⟨[], 0⟩, ⟨[], 0⟩, ⟨[], 0⟩, 4, 4⟩ []).1
    .Truncated rfl

/-- A sink that always accepts is invoked on every delta, in order. -/
theorem deliverDeltas_all_true (sink : Bitmap → Bool) (ds : List Bitmap)
    (hsink : ∀ d, sink d = true) : deliverDeltas sink ds = (ds, true) := by
  induction ds with
  | nil => rfl
  | cons d rest ih => simp [deliverDeltas, hsink d, ih]

/-- C8: the output pump invokes the caller's sink exactly once per decoded
bitmap delta, in decode order — over a run of frames that all decode and a
sink that keeps accepting, the sequence of sink invocations is exactly the
concatenation of the decoded deltas of the frames in arrival order, and the
pump returns when the transport closes (the session leaves `Active`); and
whenever the sink declines a delta the pump returns at once with
`SinkStopped`, having invoked the sink on no later delta of that frame. -/
theorem read_rdp_output_spec (sw sh bpp : Nat) (sink : Bitmap → Bool)
    (dec : List Nat → List Bitmap) (frames : List (List Nat)) :
    ((∀ d, sink d = true) →
      (∀ f ∈ frames, decode_update_pdu sw sh bpp f = .ok (dec f)) →
      read_rdp_output sw sh bpp sink frames =
        ((frames.map dec).flatten, .TransportClosed)) ∧
    (∀ f fs ds del, decode_update_pdu sw sh bpp f = .ok ds →
      deliverDeltas sink ds = (del, false) →
      read_rdp_output sw sh bpp sink (f :: fs) = (del, .SinkStopped)) := by
  constructor
  · intro hsink
    induction frames with
    | nil =>
      intro _
      rfl
    | cons f fs ih =>
      intro hdec
      have hf : decode_update_pdu sw sh bpp f = .ok (dec f) := hdec f (by simp)
      have hrest := ih (fun g hg => hdec g (List.mem_cons_of_mem f hg))
      have hdel : deliverDeltas sink (dec f) = (dec f, true) :=
        deliverDeltas_all_true sink (dec f) hsink
      simp [read_rdp_output, hf, hdel, hrest]
  · intro f fs ds del hdec2 hdel
    simp [read_rdp_output, hdec2, hdel]

/-- C8 witness: one frame holding one delta, with an always-accepting sink —
the sink is invoked exactly once, on that delta, and the pump returns with
`TransportClosed` when the frames run out. -/
theorem read_rdp_output_spec_witness :
    read_rdp_output 4 4 1 (fun _ => true)
      [encode_update_pdu [Bitmap.mk 0 0 0 0 [255]]] =
      ([Bitmap.mk 0 0 0 0 [255]], PumpExit.TransportClosed) := by
  have hmain := (read_rdp_output_spec 4 4 1 (fun _ => true)
      (fun _ => [Bitmap.mk 0 0 0 0 [255]])
      [encode_update_pdu [Bitmap.mk 0 0 0 0 [255]]]).1
      (fun _ => rfl)
      (by
        intro f hf
        simp only [List.mem_singleton] at hf
        subst hf
        rfl)
  simpa using hmain

/-- C10: every string crossing the boundary carries its length in an unsigned
16-bit field, so exactly the byte strings of length at most 65535 are
representable at the connect interface; no longer string is representable. -/
theorem boundary_strings_u16_bounded (s : List Nat) :
    (representableString s → s.length ≤ 65535) ∧
    (s.length ≤ 65535 → representableString s) := by
  constructor
  · rintro ⟨c, ⟨hlen, hlt⟩, hdata⟩
    rw [← hdata, ← hlen]
    omega
  · intro hl
    exact ⟨⟨s, s.length⟩, ⟨rfl, by show s.length < 2 ^ 16; omega⟩, rfl⟩

/-- C10 witness: the concrete string `[7, 8]` is representable and its length
is within the 16-bit bound. -/
theorem boundary_strings_u16_bounded_witness :
    representableString [7, 8] ∧ List.length [7, 8] ≤ 65535 :=
  have hrep : representableString [7, 8] :=
    (boundary_strings_u16_bounded [7, 8]).2 (by decide)
  ⟨hrep, (boundary_strings_u16_bounded [7, 8]).1 hrep⟩

end RdpClient
